import Mathlib

/-!
TradeShares client: the share-trading workflow of `client/src/App.jsx`

A shallow embedding of the React component `App` and of its event handlers.

* The component state (the `useState` cells) is the record `AppState`.
* Every handler is a function from the state before the call, and from the
  answer the external ledger gives to the call the handler may issue, to a
  `Result`: the state after the call, the trace of observable events
  (alerts, ledger calls, settlement waits, console logs) and the error that
  escapes the handler, if any.
* The cells `toBuy` and `toSell` hold what the setters store: the number `0`
  or the raw text of the input (`event.target.value`); `shareCount` holds the
  number `0` or the big integer returned by `getSharesOwned()`. The guards
  compare them as JavaScript does: text against a number by `StringToNumber`
  (rounded to a double), text against a big integer by `StringToBigInt`, where
  text that is no integer literal makes the comparison `undefined`, that is
  false.
* A `call` event is the invocation of a contract method with its arguments.
* Request and trade identifiers and bid amounts are the integers the inputs
  denote (`Int`); the bidder address and the display amount of a trade are
  text (`String`).
-/

namespace TradeShares

/-! ## Data model -/

/-- A JavaScript error value as far as the handlers look at it: `error.reason`,
which is `undefined` (`none`) for errors that carry no reason, such as the
`TypeError` raised by a call on a `null` contract. -/
structure JSError where
  reason : Option String
  deriving DecidableEq, Repr

/-- One entry of the list returned by `getMyRequest()`:
`(bidderAddress, amount, confirmed)`; `bid[0]` is the first component. -/
abbrev Bid := String × Int × Bool

/-- A JavaScript Number: `NaN`, an infinity, or the finite double
`(-1)^negative * mantissa * 2^exponent`. The values built here are in
canonical form: `exponent ≤ 0`, and `mantissa` is odd when `exponent < 0`, so
that an integer `n` is `finite _ n 0`. -/
inductive JSNumber where
  | nan
  | infinity (negative : Bool)
  | finite (negative : Bool) (mantissa : Nat) (exponent : Int)
  deriving DecidableEq, Repr

/-- The values of the cells `toBuy` and `toSell`: the number `0`
(`useState(0)` on lines 14-15, `setToSell(0)` on line 74) or the text of an
input (`event.target.value` on lines 68 and 77). -/
inductive Quantity where
  | zero
  | text (value : String)
  deriving DecidableEq, Repr

/-- The values of the cell `shareCount`: the number `0` (`useState(0)` on
line 13) or the big integer returned by `getSharesOwned()` (line 48). -/
inductive Holding where
  | zero
  | big (n : Int)
  deriving DecidableEq, Repr

/-- The methods of the ledger contract that the component invokes, with the
arguments they are invoked with: `buyShares(toBuy, {value})` receives the
cell as it is, `createSellRequest(Number(toSell))` a Number. -/
inductive LedgerCall where
  | getSharesOwned
  | buyShares (quantity : Quantity) (value : Int)
  | createSellRequest (quantity : JSNumber)
  | getMyRequest
  | placeBid (requestId : Option Int) (amount : Option Int)
  | finalizeSale (requestId : Int) (addr : String)
  | payForTrade (tradeId : Int) (value : Int)
  deriving DecidableEq, Repr

/-- Observable events of a handler run, in program order. `wait true` is
`await txn.wait()`, `wait false` is a `txn.wait()` whose promise is dropped;
`unhandled e` is the rejection of such a dropped promise, which no handler
of the component receives. -/
inductive Event where
  | alert (msg : Option String)
  | call (c : LedgerCall)
  | wait (awaited : Bool)
  | log
  | unhandled (e : JSError)
  deriving DecidableEq, Repr

/-- The answer of the ledger to a mutating call: the submission is rejected,
or it is accepted and the settlement (`txn.wait()`) is rejected, or the
settlement is confirmed. -/
inductive TxOutcome where
  | submitRejected (e : JSError)
  | settleRejected (e : JSError)
  | settled
  deriving DecidableEq, Repr

/-- The answer of the ledger to a read-only call. -/
inductive ReadOutcome (α : Type) where
  | rejected (e : JSError)
  | returned (data : α)
  deriving Repr

/-- The cell `placedBid`. -/
structure PlacedBid where
  requestId : Option Int
  amount : Option Int
  deriving DecidableEq, Repr

/-- The cell `buyer`. -/
structure Buyer where
  requestId : Int
  addr : String
  deriving DecidableEq, Repr

/-- The cell `trade`; `amount` is the text `trade.amount.toString()`. -/
structure Trade where
  id : Int
  amount : String
  deriving DecidableEq, Repr

/-- The state cells of `App` (lines 6-19). `contract` tells whether
`appState.contract` is a contract instance (`true`) or `null` (`false`). -/
structure AppState where
  installed : Bool
  account : Option String
  contract : Bool
  shareCount : Holding
  toBuy : Quantity
  toSell : Quantity
  bids : List Bid
  placedBid : PlacedBid
  buyer : Buyer
  trade : Trade
  deriving DecidableEq, Repr

/-- The initial values of the `useState` cells. -/
def initialState : AppState where
  installed := false
  account := none
  contract := false
  shareCount := .zero
  toBuy := .zero
  toSell := .zero
  bids := []
  placedBid := ⟨none, none⟩
  buyer := ⟨0, ""⟩
  trade := ⟨0, "0"⟩

/-- What a handler run leaves behind: the new state, the events in order and
the error with which the handler's promise is rejected (`none` when the
handler completes normally). -/
structure Result where
  state : AppState
  trace : List Event
  thrown : Option JSError
  deriving DecidableEq, Repr

/-- The error of a property access on `null` (`appState.contract.f` with no
contract): a `TypeError`, which has no `reason`. -/
def typeError : JSError := ⟨none⟩

/-- The error `ethers` raises for an argument it cannot convert; it has no
`reason` field. -/
def invalidArgument : JSError := ⟨none⟩

/-! ## Numeric conversion -/

/-- Value of a character as a decimal digit. -/
def digitOf (c : Char) : Nat := c.toNat - 48

/-- The longest run of decimal digits at the head of the text, and the rest. -/
def takeDigits : List Char → List Nat × List Char
  | [] => ([], [])
  | c :: cs =>
    if c.isDigit then ((digitOf c) :: (takeDigits cs).1, (takeDigits cs).2)
    else ([], c :: cs)

/-- The number written by a list of decimal digits, most significant first. -/
def digitsToNat (ds : List Nat) : Nat := ds.foldl (fun acc d => 10 * acc + d) 0

/-- Modelled from the spec: `ethers.parseUnits` is a function of the imported
library `ethers`, not of this repository; section 6 fixes it as the
conversion of a human-entered decimal amount to base units by the scale
factor `10^decimals`. The text must be an optional `-`, digits, an optional
`.`, digits, with at least one digit; fractional digits beyond `decimals`
must all be `0`. The result is the integer written by the whole part followed
by the fractional part padded to `decimals` digits. -/
def parseUnits (text : List Char) (decimals : Nat) : Option Int :=
  let negative := text.head? == some '-'
  let body := if negative then text.tail else text
  let whole := takeDigits body
  let afterPoint := if whole.2.head? == some '.' then whole.2.tail else whole.2
  let frac := takeDigits afterPoint
  if frac.2 = [] ∧ 0 < whole.1.length + frac.1.length then
    let padded := frac.1 ++ List.replicate (decimals - frac.1.length) 0
    if (padded.drop decimals).all (fun d => d == 0) then
      let magnitude : Int := digitsToNat (whole.1 ++ padded.take decimals)
      some (if negative then -magnitude else magnitude)
    else none
  else none

/-- Modelled from the spec: `ethers.parseEther` is imported from the library
`ethers`; it is `parseUnits` with 18 decimals (display unit times `10^18`). -/
def parseEther (text : String) : Option Int := parseUnits text.data 18

/-! ## JavaScript numbers and comparisons -/

/-- Removes at most `k` factors two from `m`: the pair of the reduced mantissa
and of the number of factors still to remove. -/
def stripTwos : Nat → Nat → Nat × Nat
  | m, 0 => (m, 0)
  | m, k + 1 => if m % 2 = 0 ∧ m ≠ 0 then stripTwos (m / 2) k else (m, k + 1)

/-- Canonical form of `mantissa * 2^exponent`. -/
def canonical (negative : Bool) (mantissa : Nat) (exponent : Int) : JSNumber :=
  if mantissa = 0 then .finite negative 0 0
  else if 0 ≤ exponent then .finite negative (mantissa * 2 ^ exponent.toNat) 0
  else
    let r := stripTwos mantissa (-exponent).toNat
    .finite negative r.1 (-(r.2 : Int))

/-- The position of the highest set bit of `n` (0 for `n ≤ 1`), by halving at
most `fuel` times. -/
def log2Floor : Nat → Nat → Nat
  | 0, _ => 0
  | fuel + 1, n => if n ≤ 1 then 0 else log2Floor fuel (n / 2) + 1

/-- The Number value for the rational `num / den` (`den` positive) with the
given sign: the nearest double, ties to the even mantissa, an infinity from
`2^1024` on. -/
def roundToDouble (negative : Bool) (num den : Nat) : JSNumber :=
  if num = 0 then .finite negative 0 0
  else
    let k0 : Int := (log2Floor num num : Int) - (log2Floor den den : Int)
    let atLeast : Bool :=
      if 0 ≤ k0 then decide (den * 2 ^ k0.toNat ≤ num) else decide (den ≤ num * 2 ^ (-k0).toNat)
    let k : Int := if atLeast then k0 else k0 - 1
    let e : Int := max k (-1022) - 52
    let scaledNum : Nat := if e < 0 then num * 2 ^ (-e).toNat else num
    let scaledDen : Nat := if e < 0 then den else den * 2 ^ e.toNat
    let q := scaledNum / scaledDen
    let r := scaledNum % scaledDen
    let n := if 2 * r < scaledDen then q else if scaledDen < 2 * r then q + 1
      else if q % 2 = 0 then q else q + 1
    if 971 < e ∨ (e = 971 ∧ 2 ^ 53 ≤ n) then .infinity negative
    else canonical negative n e

/-- The characters of `StrWhiteSpaceChar` (white space and line terminators). -/
def isStrWhiteSpace (c : Char) : Bool :=
  [9, 10, 11, 12, 13, 32, 160, 5760, 8232, 8233, 8239, 8287, 12288, 65279].contains c.toNat
    || (8192 ≤ c.toNat && c.toNat ≤ 8202)

/-- The text without leading and trailing white space. -/
def trimWhiteSpace (text : List Char) : List Char :=
  ((text.dropWhile isStrWhiteSpace).reverse.dropWhile isStrWhiteSpace).reverse

/-- Value of a character as a digit in the given radix, if it is one. -/
def radixDigit (radix : Nat) (c : Char) : Option Nat :=
  let v :=
    if c.isDigit then c.toNat - 48
    else if 97 ≤ c.toNat ∧ c.toNat ≤ 102 then c.toNat - 87
    else if 65 ≤ c.toNat ∧ c.toNat ≤ 70 then c.toNat - 55
    else radix
  if v < radix then some v else none

/-- The number written by a non-empty run of digits of the radix. -/
def radixDigits (radix : Nat) (cs : List Char) : Option Nat :=
  if cs = [] then none
  else cs.foldl (fun acc c =>
    match acc, radixDigit radix c with
    | some a, some d => some (radix * a + d)
    | _, _ => none) (some 0)

/-- The value of a `NonDecimalIntegerLiteral` (`0x`, `0o`, `0b`), if the text
is one. -/
def nonDecimalLiteral (text : List Char) : Option Nat :=
  match text with
  | '0' :: 'x' :: cs => radixDigits 16 cs
  | '0' :: 'X' :: cs => radixDigits 16 cs
  | '0' :: 'o' :: cs => radixDigits 8 cs
  | '0' :: 'O' :: cs => radixDigits 8 cs
  | '0' :: 'b' :: cs => radixDigits 2 cs
  | '0' :: 'B' :: cs => radixDigits 2 cs
  | _ => none

/-- An optional sign at the head of the text: whether it is `-`, and the rest. -/
def takeSign (text : List Char) : Bool × List Char :=
  match text with
  | '-' :: cs => (true, cs)
  | '+' :: cs => (false, cs)
  | _ => (false, text)

/-- The value of a `StrDecimalLiteral` without its sign: `Infinity`, or digits
with an optional fraction and an optional exponent part. -/
def unsignedDecimalLiteral (negative : Bool) (text : List Char) : JSNumber :=
  if text = "Infinity".data then .infinity negative
  else
    let whole := takeDigits text
    let hasPoint := whole.2.head? == some '.'
    let frac := if hasPoint then takeDigits whole.2.tail else ([], whole.2)
    if whole.1.length + frac.1.length = 0 then .nan
    else
      let mantissa := digitsToNat (whole.1 ++ frac.1)
      match frac.2 with
      | [] => roundToDouble negative mantissa (10 ^ frac.1.length)
      | c :: cs =>
        if c = 'e' ∨ c = 'E' then
          let sign := takeSign cs
          let digits := takeDigits sign.2
          if digits.1 = [] ∨ digits.2 ≠ [] then .nan
          else
            let shift : Int :=
              (if sign.1 then -(digitsToNat digits.1 : Int) else (digitsToNat digits.1 : Int))
                - (frac.1.length : Int)
            if 0 ≤ shift then roundToDouble negative (mantissa * 10 ^ shift.toNat) 1
            else roundToDouble negative mantissa (10 ^ (-shift).toNat)
        else .nan

/-- The abstract operation `StringToNumber`, the conversion of text by
`ToNumber` and `Number(...)`: white space is trimmed, the empty text is `0`,
a literal is rounded to the nearest double from its exact value (as engines
do, also beyond 20 significant digits), any other text is `NaN`. -/
def stringToNumber (text : List Char) : JSNumber :=
  let t := trimWhiteSpace text
  if t = [] then .finite false 0 0
  else
    match nonDecimalLiteral t with
    | some n => roundToDouble false n 1
    | none => unsignedDecimalLiteral (takeSign t).1 (takeSign t).2

/-- The abstract operation `StringToBigInt`: `none` is `undefined`. -/
def stringToBigInt (text : List Char) : Option Int :=
  let t := trimWhiteSpace text
  if t = [] then some 0
  else
    match nonDecimalLiteral t with
    | some n => some (n : Int)
    | none =>
      let sign := takeSign t
      let digits := takeDigits sign.2
      if digits.1 = [] ∨ digits.2 ≠ [] then none
      else some (if sign.1 then -(digitsToNat digits.1 : Int) else (digitsToNat digits.1 : Int))

/-- The relation `x < k` between a Number and an integer (a number literal or
a big integer): the comparison of the exact values, false on `NaN`. -/
def JSNumber.lessThan : JSNumber → Int → Bool
  | .nan, _ => false
  | .infinity negative, _ => negative
  | .finite negative mantissa exponent, k =>
    let signed : Int := if negative then -(mantissa : Int) else (mantissa : Int)
    if exponent < 0 then decide (signed < k * 2 ^ (-exponent).toNat)
    else decide (signed * 2 ^ exponent.toNat < k)

/-- The relation `x > k` between a Number and an integer: the comparison of
the exact values, false on `NaN`. -/
def JSNumber.greaterThan : JSNumber → Int → Bool
  | .nan, _ => false
  | .infinity negative, _ => !negative
  | .finite negative mantissa exponent, k =>
    let signed : Int := if negative then -(mantissa : Int) else (mantissa : Int)
    if exponent < 0 then decide (k * 2 ^ (-exponent).toNat < signed)
    else decide (k < signed * 2 ^ exponent.toNat)

/-- The operation `ToNumber` on a cell, which is also `Number(cell)`. -/
def Quantity.toNumber : Quantity → JSNumber
  | .zero => .finite false 0 0
  | .text value => stringToNumber value.data

/-- The text `cell.toString()`. -/
def Quantity.toText : Quantity → String
  | .zero => "0"
  | .text value => value

/-- The comparison `cell < k` with a number literal `k`. -/
def Quantity.lessThan (q : Quantity) (k : Int) : Bool := q.toNumber.lessThan k

/-- The comparison `cell > k` with a number literal `k`. -/
def Quantity.greaterThan (q : Quantity) (k : Int) : Bool := q.toNumber.greaterThan k

/-- The comparison `cell > shareCount`. Against the number `0` the cell is
converted by `ToNumber`; the number `0` against a big integer is compared
exactly; text against a big integer is converted by `StringToBigInt`, and the
comparison is `undefined`, hence false, when the text is no integer literal. -/
def Quantity.greaterThanHolding (q : Quantity) (h : Holding) : Bool :=
  match q, h with
  | _, .zero => q.toNumber.greaterThan 0
  | .zero, .big n => decide (n < 0)
  | .text value, .big n =>
    match stringToBigInt value.data with
    | none => false
    | some k => decide (n < k)

/-! ## Handlers -/

/-- Function `getShares` (lines 45-50). -/
def getShares (s : AppState) (o : ReadOutcome Int) : Result :=
  if s.contract then
    match o with
    | .returned data => ⟨{ s with shareCount := .big data }, [.call .getSharesOwned], none⟩
    | .rejected e => ⟨s, [.call .getSharesOwned], some e⟩
  else ⟨s, [], none⟩

/-- Function `buyHandler` (lines 52-64). A call on a `null` contract raises a
`TypeError` inside the `try`, which the `catch` turns into `alert(undefined)`. -/
def buyHandler (s : AppState) (o : TxOutcome) : Result :=
  if s.toBuy.lessThan 1 || s.toBuy.greaterThan 5 then
    ⟨s, [.alert (some "Allowed share - 1 -> 5")], none⟩
  else
    match parseEther s.toBuy.toText with
    | none => ⟨s, [.alert invalidArgument.reason], none⟩
    | some value =>
      if s.contract then
        match o with
        | .submitRejected e =>
          ⟨s, [.call (.buyShares s.toBuy value), .alert e.reason], none⟩
        | .settleRejected e =>
          ⟨s, [.call (.buyShares s.toBuy value), .wait true, .alert e.reason], none⟩
        | .settled =>
          ⟨s, [.call (.buyShares s.toBuy value), .wait true, .log,
                .alert (some "Shares bought successfully")], none⟩
      else ⟨s, [.alert typeError.reason], none⟩

/-- Function `changeHandler` (lines 66-69). -/
def changeHandler (s : AppState) (value : String) : Result :=
  if (Quantity.text value).lessThan 1 || (Quantity.text value).greaterThan 5 then
    ⟨s, [.alert (some "Allowed share - 1 -> 5")], none⟩
  else ⟨{ s with toBuy := .text value }, [], none⟩

/-- Function `sellChangeHandler` (lines 71-78). -/
def sellChangeHandler (s : AppState) (value : String) : Result :=
  if (Quantity.text value).greaterThanHolding s.shareCount
      || (Quantity.text value).lessThan 1 then
    ⟨{ s with toSell := .zero }, [.alert (some "Insufficient share amount entered!")], none⟩
  else ⟨{ s with toSell := .text value }, [], none⟩

/-- Function `sellHandler` (lines 80-94). -/
def sellHandler (s : AppState) (o : TxOutcome) : Result :=
  if s.toSell.greaterThanHolding s.shareCount then
    ⟨s, [.alert (some "Insufficient share amount entered!")], none⟩
  else
    if s.contract then
      match o with
      | .submitRejected e =>
        ⟨s, [.call (.createSellRequest s.toSell.toNumber), .alert e.reason], none⟩
      | .settleRejected e =>
        ⟨s, [.call (.createSellRequest s.toSell.toNumber), .wait true, .alert e.reason], none⟩
      | .settled =>
        ⟨s, [.call (.createSellRequest s.toSell.toNumber), .wait true, .log,
              .alert (some "Sell request placed successfully!!")], none⟩
    else ⟨s, [.alert typeError.reason], none⟩

/-- Function `showBids` (lines 96-99); there is no `try`, so an error escapes. -/
def showBids (s : AppState) (o : ReadOutcome (List Bid)) : Result :=
  if s.contract then
    match o with
    | .returned data => ⟨{ s with bids := data }, [.call .getMyRequest], none⟩
    | .rejected e => ⟨s, [.call .getMyRequest], some e⟩
  else ⟨s, [], some typeError⟩

/-- Function `bidChangeHandler` (lines 101-103). -/
def bidChangeHandler (s : AppState) (value : Int) : Result :=
  ⟨{ s with placedBid := { s.placedBid with amount := some value } }, [], none⟩

/-- Function `requestChangeHandler` (lines 105-107). -/
def requestChangeHandler (s : AppState) (value : Int) : Result :=
  ⟨{ s with placedBid := { s.placedBid with requestId := some value } }, [], none⟩

/-- Function `sendBid` (lines 109-116). The promise of `txn.wait()` is not
awaited: its rejection is outside the `try` and reaches no handler. -/
def sendBid (s : AppState) (o : TxOutcome) : Result :=
  let c := LedgerCall.placeBid s.placedBid.requestId s.placedBid.amount
  if s.contract then
    match o with
    | .submitRejected e => ⟨s, [.call c, .alert e.reason], none⟩
    | .settleRejected e => ⟨s, [.call c, .wait false, .unhandled e], none⟩
    | .settled => ⟨s, [.call c, .wait false], none⟩
  else ⟨s, [.alert typeError.reason], none⟩

/-- Function `buyerChangeHandler` (lines 118-120). -/
def buyerChangeHandler (s : AppState) (value : String) : Result :=
  ⟨{ s with buyer := { s.buyer with addr := value } }, [], none⟩

/-- Function `buyerRequestChangeHandler` (lines 122-124). -/
def buyerRequestChangeHandler (s : AppState) (value : Int) : Result :=
  ⟨{ s with buyer := { s.buyer with requestId := value } }, [], none⟩

/-- The method `Array.prototype.findIndex`: the index of the first element
that satisfies the predicate, `-1` when there is none. -/
def findIndex {α : Type} (p : α → Bool) : List α → Int
  | [] => -1
  | a :: as => if p a then 0 else
      let i := findIndex p as
      if i < 0 then -1 else i + 1

/-- Function `confirmBuyer` (lines 126-140). -/
def confirmBuyer (s : AppState) (o : TxOutcome) : Result :=
  let index := findIndex (fun bid : Bid => bid.1 == s.buyer.addr) s.bids
  if index < 0 then ⟨s, [.alert (some "Invalid buyer address")], none⟩
  else
    let c := LedgerCall.finalizeSale s.buyer.requestId s.buyer.addr
    if s.contract then
      match o with
      | .submitRejected e => ⟨s, [.call c, .alert e.reason], none⟩
      | .settleRejected e => ⟨s, [.call c, .wait true, .alert e.reason], none⟩
      | .settled =>
        ⟨s, [.call c, .wait true, .alert (some "Buyer confirmed. Wait for buyer to pay.")], none⟩
    else ⟨s, [.alert typeError.reason], none⟩

/-- Function `tradeIdHandler` (lines 142-144). -/
def tradeIdHandler (s : AppState) (value : Int) : Result :=
  ⟨{ s with trade := { s.trade with id := value } }, [], none⟩

/-- Function `tradeAmountHandler` (lines 146-148). -/
def tradeAmountHandler (s : AppState) (value : String) : Result :=
  ⟨{ s with trade := { s.trade with amount := value } }, [], none⟩

/-- Function `PayForTrade` (lines 150-162). The conversion is outside the
`try`: its error escapes the handler. -/
def PayForTrade (s : AppState) (o : TxOutcome) : Result :=
  match parseEther s.trade.amount with
  | none => ⟨s, [], some invalidArgument⟩
  | some tradeAmount =>
    let c := LedgerCall.payForTrade s.trade.id tradeAmount
    if s.contract then
      match o with
      | .submitRejected e => ⟨s, [.call c, .alert e.reason], none⟩
      | .settleRejected e => ⟨s, [.call c, .wait true, .alert e.reason], none⟩
      | .settled => ⟨s, [.call c, .wait true, .alert (some "Payment was successful")], none⟩
    else ⟨s, [.alert typeError.reason], none⟩

/-- The effect of mounting (lines 21-43): without `window.ethereum` (`none`)
nothing happens; with it `installed` is set, and when the wallet answers with
an account the account and the contract instance are stored. -/
def getMetaMaskAccount (s : AppState) (wallet : Option (ReadOutcome String)) : Result :=
  match wallet with
  | none => ⟨s, [], none⟩
  | some (.rejected e) => ⟨{ s with installed := true }, [], some e⟩
  | some (.returned account) =>
    ⟨{ s with installed := true, account := some account, contract := true }, [], none⟩

/-! ## The component as a transition system -/

/-- One run of a function of the component, together with the answer of the
external collaborator it reaches: the mount effect and every handler bound to
a widget. (The page reload on `accountsChanged` ends the component instance;
the next instance starts again from `initialState`.) -/
inductive Action where
  | mount (wallet : Option (ReadOutcome String))
  | getShares (o : ReadOutcome Int)
  | buyHandler (o : TxOutcome)
  | changeHandler (value : String)
  | sellChangeHandler (value : String)
  | sellHandler (o : TxOutcome)
  | showBids (o : ReadOutcome (List Bid))
  | bidChangeHandler (value : Int)
  | requestChangeHandler (value : Int)
  | sendBid (o : TxOutcome)
  | buyerChangeHandler (value : String)
  | buyerRequestChangeHandler (value : Int)
  | confirmBuyer (o : TxOutcome)
  | tradeIdHandler (value : Int)
  | tradeAmountHandler (value : String)
  | PayForTrade (o : TxOutcome)

/-- Runs the handler of an action. -/
def step (s : AppState) : Action → Result
  | .mount w => getMetaMaskAccount s w
  | .getShares o => getShares s o
  | .buyHandler o => buyHandler s o
  | .changeHandler v => changeHandler s v
  | .sellChangeHandler v => sellChangeHandler s v
  | .sellHandler o => sellHandler s o
  | .showBids o => showBids s o
  | .bidChangeHandler v => bidChangeHandler s v
  | .requestChangeHandler v => requestChangeHandler s v
  | .sendBid o => sendBid s o
  | .buyerChangeHandler v => buyerChangeHandler s v
  | .buyerRequestChangeHandler v => buyerRequestChangeHandler s v
  | .confirmBuyer o => confirmBuyer s o
  | .tradeIdHandler v => tradeIdHandler s v
  | .tradeAmountHandler v => tradeAmountHandler s v
  | .PayForTrade o => PayForTrade s o

/-- The ledger calls of a trace, in order. -/
def ledgerCalls : List Event → List LedgerCall
  | [] => []
  | .call c :: es => c :: ledgerCalls es
  | _ :: es => ledgerCalls es

/-- The alerts of a trace, in order. -/
def alerts : List Event → List (Option String)
  | [] => []
  | .alert m :: es => m :: alerts es
  | _ :: es => alerts es

/-- Whether some settlement is awaited in the trace. -/
def awaitsSettlement (t : List Event) : Bool := t.contains (.wait true)

/-- A run signals a failure to the caller when it raises an alert or when an
error escapes it. -/
def signalsFailure (r : Result) : Bool := !(alerts r.trace).isEmpty || r.thrown.isSome

/-- The decimal digit `d` as a character. -/
def digitChar (d : Fin 10) : Char := Char.ofNat (48 + d.val)

/-- The text of a non-negative decimal display amount: the digits of the whole
part, then, when `point` holds, a `.` and the fractional digits. -/
def decimalText (whole frac : List (Fin 10)) (point : Bool) : String :=
  String.mk (whole.map digitChar ++ (if point then '.' :: frac.map digitChar else []))

/-- The number a decimal display amount denotes. -/
def decimalValue (whole frac : List (Fin 10)) : ℚ :=
  (digitsToNat (whole.map Fin.val) : ℚ)
    + (digitsToNat (frac.map Fin.val) : ℚ) / 10 ^ frac.length

/-- A state with an active session and otherwise initial cells. -/
def connectedState : AppState := { initialState with contract := true }

/-! ## Local rejections -/

/-- The index reported by `findIndex` is negative exactly when no element
satisfies the predicate. -/
theorem findIndex_neg_iff {α : Type} (p : α → Bool) (l : List α) :
    findIndex p l < 0 ↔ ∀ a ∈ l, p a = false := by
  induction l with
  | nil => simp [findIndex]
  | cons a as ih =>
    by_cases hp : p a = true
    · simp [findIndex, hp]
    · have hp' : p a = false := by simpa using hp
      by_cases hi : findIndex p as < 0
      · simp only [findIndex, hp', Bool.false_eq_true, if_false, hi, if_true, List.mem_cons,
          forall_eq_or_imp, true_and]
        exact ⟨fun _ => ih.mp hi, fun _ => by decide⟩
      · have hne : ¬ ∀ b ∈ as, p b = false := fun h => hi (ih.mpr h)
        have hpos : ¬ (findIndex p as + 1 < 0) := by omega
        simp only [findIndex, hp', Bool.false_eq_true, if_false, hi, hpos, false_iff]
        intro h
        exact hne (fun b hb => h b (List.mem_cons_of_mem a hb))

/-- C1: in every state whose pending buy quantity `toBuy` is below 1 or above
5 (as the guard compares them), `buyHandler` only raises the alert "Allowed
share - 1 -> 5": the state is unchanged, no ledger call is issued (so
`buyShares` is not invoked) and no settlement is awaited, whatever the ledger
would answer. -/
theorem buyHandler_rejects_invalid_quantity (s : AppState) (o : TxOutcome)
    (h : s.toBuy.lessThan 1 = true ∨ s.toBuy.greaterThan 5 = true) :
    buyHandler s o = ⟨s, [.alert (some "Allowed share - 1 -> 5")], none⟩ ∧
      ledgerCalls (buyHandler s o).trace = [] ∧
      awaitsSettlement (buyHandler s o).trace = false := by
  have hguard : (s.toBuy.lessThan 1 || s.toBuy.greaterThan 5) = true := by
    simpa using h
  have hrun : buyHandler s o = ⟨s, [.alert (some "Allowed share - 1 -> 5")], none⟩ := by
    unfold buyHandler
    rw [if_pos hguard]
  rw [hrun]
  exact ⟨rfl, rfl, rfl⟩

/-- Witness of C1: a connected state with the text "7" in `toBuy` and a ledger
that would settle the call. -/
theorem buyHandler_rejects_invalid_quantity_witness :
    (({ connectedState with toBuy := .text "7" } : AppState).toBuy.lessThan 1 = true ∨
        ({ connectedState with toBuy := .text "7" } : AppState).toBuy.greaterThan 5 = true) ∧
      (buyHandler { connectedState with toBuy := .text "7" } .settled
          = ⟨{ connectedState with toBuy := .text "7" },
              [.alert (some "Allowed share - 1 -> 5")], none⟩ ∧
        ledgerCalls (buyHandler { connectedState with toBuy := .text "7" } .settled).trace
          = [] ∧
        awaitsSettlement
          (buyHandler { connectedState with toBuy := .text "7" } .settled).trace = false) :=
  ⟨by decide,
    buyHandler_rejects_invalid_quantity { connectedState with toBuy := .text "7" } .settled
      (by decide)⟩

/-- Whenever the guard `toSell > shareCount` of `sellHandler` holds as the
code evaluates it, the run is only the alert "Insufficient share amount
entered!", with no ledger call. -/
theorem sellHandler_guard_rejects (s : AppState) (o : TxOutcome)
    (h : s.toSell.greaterThanHolding s.shareCount = true) :
    sellHandler s o = ⟨s, [.alert (some "Insufficient share amount entered!")], none⟩ ∧
      ledgerCalls (sellHandler s o).trace = [] := by
  have hrun :
      sellHandler s o = ⟨s, [.alert (some "Insufficient share amount entered!")], none⟩ := by
    unfold sellHandler
    rw [if_pos h]
  rw [hrun]
  exact ⟨rfl, rfl⟩

/-- C2 (the code departs from the claim): with an active session and a cached
holding of 2 (the big integer returned by `getSharesOwned()`), the entry
"10.0" denotes the quantity 10, above the holding; it is no integer literal,
so its comparison with the big integer is false: `sellChangeHandler` stores
the text without an alert, and `sellHandler` raises no alert and invokes
`createSellRequest(10)`, awaits it and reports success. -/
theorem sellHandler_submits_excess_quantity :
    Quantity.toNumber (.text "10.0") = .finite false 10 0 ∧
      (Quantity.text "10.0").greaterThanHolding (.big 2) = false ∧
      sellChangeHandler { connectedState with shareCount := .big 2 } "10.0"
        = ⟨{ connectedState with shareCount := .big 2, toSell := .text "10.0" }, [], none⟩ ∧
      sellHandler { connectedState with shareCount := .big 2, toSell := .text "10.0" }
          .settled
        = ⟨{ connectedState with shareCount := .big 2, toSell := .text "10.0" },
            [.call (.createSellRequest (.finite false 10 0)), .wait true, .log,
              .alert (some "Sell request placed successfully!!")], none⟩ := by
  decide

/-- C3: for every cached bid list, every request id and every address that is
the bidder (first component) of no entry of the list, `confirmBuyer` only
raises the alert "Invalid buyer address": the state is unchanged and no ledger
call is issued (so `finalizeSale` is not invoked), whatever the ledger would
answer. -/
theorem confirmBuyer_rejects_unknown_bidder (s : AppState) (o : TxOutcome)
    (h : ∀ bid ∈ s.bids, bid.1 ≠ s.buyer.addr) :
    confirmBuyer s o = ⟨s, [.alert (some "Invalid buyer address")], none⟩ ∧
      ledgerCalls (confirmBuyer s o).trace = [] := by
  have hidx : findIndex (fun bid : Bid => bid.1 == s.buyer.addr) s.bids < 0 := by
    rw [findIndex_neg_iff]
    intro bid hbid
    simpa using h bid hbid
  have hrun : confirmBuyer s o = ⟨s, [.alert (some "Invalid buyer address")], none⟩ := by
    unfold confirmBuyer
    simp only [hidx, if_true]
  rw [hrun]
  exact ⟨rfl, rfl⟩

/-- Witness of C3: the cached list holds a bid of `0xA`, the address entered
is `0xB`. -/
theorem confirmBuyer_rejects_unknown_bidder_witness :
    (∀ bid ∈ ({ connectedState with
          bids := [("0xA", 4, false)], buyer := ⟨1, "0xB"⟩ } : AppState).bids,
        bid.1 ≠ ({ connectedState with
          bids := [("0xA", 4, false)], buyer := ⟨1, "0xB"⟩ } : AppState).buyer.addr) ∧
      (confirmBuyer
          { connectedState with bids := [("0xA", 4, false)], buyer := ⟨1, "0xB"⟩ } .settled
          = ⟨{ connectedState with bids := [("0xA", 4, false)], buyer := ⟨1, "0xB"⟩ },
              [.alert (some "Invalid buyer address")], none⟩ ∧
        ledgerCalls (confirmBuyer
          { connectedState with bids := [("0xA", 4, false)], buyer := ⟨1, "0xB"⟩ }
          .settled).trace = []) :=
  ⟨by decide,
    confirmBuyer_rejects_unknown_bidder
      { connectedState with bids := [("0xA", 4, false)], buyer := ⟨1, "0xB"⟩ } .settled
      (by decide)⟩

/-! ## Buying -/

/-- The plain decimal numeral of a natural number, the text a number input
holds for it. -/
theorem numeral_guard_and_value (q : Nat) (h1 : 1 ≤ q) (h5 : q ≤ 5) :
    (Quantity.text (String.mk (Nat.toDigits 10 q))).lessThan 1 = false ∧
      (Quantity.text (String.mk (Nat.toDigits 10 q))).greaterThan 5 = false ∧
      parseEther (String.mk (Nat.toDigits 10 q)) = some ((q : Int) * 10 ^ 18) := by
  interval_cases q <;> decide

/-- With an active session and the plain decimal numeral of a quantity `q`
with `1 ≤ q ≤ 5` in `toBuy`, whatever the ledger answers, `buyHandler` invokes
exactly one ledger method, `buyShares` with that text and the attached value
`q * 10^18`. -/
theorem buyHandler_numeral_submits_scaled_value (s : AppState) (o : TxOutcome) (q : Nat)
    (hc : s.contract = true) (h1 : 1 ≤ q) (h5 : q ≤ 5)
    (hq : s.toBuy = .text (String.mk (Nat.toDigits 10 q))) :
    ledgerCalls (buyHandler s o).trace = [.buyShares s.toBuy ((q : Int) * 10 ^ 18)] := by
  obtain ⟨hlt, hgt, hparse⟩ := numeral_guard_and_value q h1 h5
  unfold buyHandler
  simp only [hq, hlt, hgt, Bool.or_self, Bool.false_eq_true, if_false, Quantity.toText, hparse,
    hc, if_true]
  cases o <;> rfl

/-- C4 (the code departs from the claim): the entry "1e0" denotes the integer
quantity 1; `changeHandler` accepts it and stores the text, the guard of
`buyHandler` lets it pass, the conversion of the raw text to base units is
refused, and the run is only `alert(undefined)`: with an active session and a
ledger that would settle, `buyShares` is not invoked. -/
theorem buyHandler_refuses_exponent_text :
    Quantity.toNumber (.text "1e0") = .finite false 1 0 ∧
      changeHandler connectedState "1e0"
        = ⟨{ connectedState with toBuy := .text "1e0" }, [], none⟩ ∧
      (Quantity.text "1e0").lessThan 1 = false ∧
      (Quantity.text "1e0").greaterThan 5 = false ∧
      parseEther "1e0" = none ∧
      buyHandler { connectedState with toBuy := .text "1e0" } .settled
        = ⟨{ connectedState with toBuy := .text "1e0" }, [.alert none], none⟩ ∧
      ledgerCalls (buyHandler { connectedState with toBuy := .text "1e0" } .settled).trace
        = [] := by
  decide

/-! ## Selling -/

/-- With an active session `sellHandler` submits the listing exactly when the
guard `toSell > shareCount` is false; there is no lower bound. -/
theorem sellHandler_calls_iff (s : AppState) (o : TxOutcome) (hc : s.contract = true) :
    ledgerCalls (sellHandler s o).trace = [.createSellRequest s.toSell.toNumber]
      ↔ s.toSell.greaterThanHolding s.shareCount = false := by
  unfold sellHandler
  by_cases h : s.toSell.greaterThanHolding s.shareCount = true
  · rw [if_pos h]
    simp [ledgerCalls, h]
  · rw [if_neg h]
    simp only [hc, if_true]
    have hfalse : s.toSell.greaterThanHolding s.shareCount = false := by simpa using h
    cases o <;> simp [ledgerCalls, hfalse]

/-- C5 (the code departs from the claim): in the connected initial state
`toSell` is 0, below 1, and `sellHandler` still submits `createSellRequest(0)`
and awaits its settlement; the same happens with the 0 that
`sellChangeHandler` stores after the invalid entry "9". -/
theorem sellHandler_submits_zero_quantity :
    connectedState.toSell.lessThan 1 = true ∧
      sellHandler connectedState .settled
        = ⟨connectedState,
            [.call (.createSellRequest (.finite false 0 0)), .wait true, .log,
              .alert (some "Sell request placed successfully!!")], none⟩ ∧
      (sellChangeHandler connectedState "9").state.toSell = .zero ∧
      ledgerCalls (sellHandler (sellChangeHandler connectedState "9").state .settled).trace
        = [.createSellRequest (.finite false 0 0)] := by
  decide

/-! ## Loading the holding -/

/-- C7 as stated fails: in the initial state there is no session
(`appState.contract` is `null`), and `getShares` completes normally: no error
escapes it and it signals no failure. -/
theorem getShares_no_session_signals_nothing :
    initialState.contract = false ∧
      (getShares initialState (.returned 4)).thrown = none ∧
      signalsFailure (getShares initialState (.returned 4)) = false := by
  decide

/-- C7, amended: in every state with no active session `getShares` completes
normally without any event (no ledger call, no alert, no escaping error) and
leaves the whole state, in particular the cached holding, unchanged. -/
theorem getShares_no_session_is_silent (s : AppState) (o : ReadOutcome Int)
    (h : s.contract = false) :
    getShares s o = ⟨s, [], none⟩ ∧
      (getShares s o).state.shareCount = s.shareCount ∧
      signalsFailure (getShares s o) = false := by
  have hrun : getShares s o = ⟨s, [], none⟩ := by
    unfold getShares
    simp [h]
  rw [hrun]
  exact ⟨rfl, rfl, rfl⟩

/-- Witness of C7 amended: the initial state with a cached holding of 2. -/
theorem getShares_no_session_is_silent_witness :
    ({ initialState with shareCount := .big 2 } : AppState).contract = false ∧
      (getShares { initialState with shareCount := .big 2 } (.returned 9)
          = ⟨{ initialState with shareCount := .big 2 }, [], none⟩ ∧
        (getShares { initialState with shareCount := .big 2 } (.returned 9)).state.shareCount
          = ({ initialState with shareCount := .big 2 } : AppState).shareCount ∧
        signalsFailure (getShares { initialState with shareCount := .big 2 } (.returned 9))
          = false) :=
  ⟨rfl, getShares_no_session_is_silent { initialState with shareCount := .big 2 } (.returned 9) rfl⟩

/-! ## Ledger rejections -/

/-- With an active session, a rejected submission and a rejected settlement
are both reported by `buyHandler`, `sellHandler`, `confirmBuyer` and
`PayForTrade` once they have passed their local checks and conversions: the run ends with the
alert of the reason the ledger gave, and a rejected settlement was awaited. -/
theorem awaited_rejections_are_alerted (s : AppState) (e : JSError)
    (hc : s.contract = true) :
    (s.toBuy.lessThan 1 = false → s.toBuy.greaterThan 5 = false →
        (parseEther s.toBuy.toText).isSome = true →
      alerts (buyHandler s (.submitRejected e)).trace = [e.reason] ∧
      alerts (buyHandler s (.settleRejected e)).trace = [e.reason] ∧
      awaitsSettlement (buyHandler s (.settleRejected e)).trace = true) ∧
    (s.toSell.greaterThanHolding s.shareCount = false →
      alerts (sellHandler s (.submitRejected e)).trace = [e.reason] ∧
      alerts (sellHandler s (.settleRejected e)).trace = [e.reason] ∧
      awaitsSettlement (sellHandler s (.settleRejected e)).trace = true) ∧
    ((∃ bid ∈ s.bids, bid.1 = s.buyer.addr) →
      alerts (confirmBuyer s (.submitRejected e)).trace = [e.reason] ∧
      alerts (confirmBuyer s (.settleRejected e)).trace = [e.reason] ∧
      awaitsSettlement (confirmBuyer s (.settleRejected e)).trace = true) ∧
    ((parseEther s.trade.amount).isSome = true →
      alerts (PayForTrade s (.submitRejected e)).trace = [e.reason] ∧
      alerts (PayForTrade s (.settleRejected e)).trace = [e.reason] ∧
      awaitsSettlement (PayForTrade s (.settleRejected e)).trace = true) := by
  refine ⟨?_, ?_, ?_, ?_⟩
  · intro hlt hgt hsome
    obtain ⟨v, hv⟩ := Option.isSome_iff_exists.mp hsome
    simp only [buyHandler, hlt, hgt, Bool.or_self, Bool.false_eq_true, if_false, hv, hc,
      if_true]
    exact ⟨rfl, rfl, rfl⟩
  · intro hle
    simp only [sellHandler, hle, Bool.false_eq_true, if_false, hc, if_true]
    exact ⟨rfl, rfl, rfl⟩
  · rintro ⟨bid, hbid, heq⟩
    have hidx : ¬ findIndex (fun bid : Bid => bid.1 == s.buyer.addr) s.bids < 0 := by
      rw [findIndex_neg_iff]
      intro hall
      have := hall bid hbid
      simp [heq] at this
    simp only [confirmBuyer, if_neg hidx, hc, if_true]
    exact ⟨rfl, rfl, rfl⟩
  · intro hsome
    obtain ⟨v, hv⟩ := Option.isSome_iff_exists.mp hsome
    simp only [PayForTrade, hv, hc, if_true]
    exact ⟨rfl, rfl, rfl⟩

/-- C8 (the code departs from the claim): with an active session, a bid
`placeBid(1, 10)` whose submission is accepted and whose settlement is
rejected with the reason "execution reverted": `sendBid` calls `txn.wait()`
without awaiting it, raises no alert and completes normally, and the
rejection stays unhandled. -/
theorem sendBid_drops_settlement_rejection :
    sendBid { connectedState with placedBid := ⟨some 1, some 10⟩ }
        (.settleRejected ⟨some "execution reverted"⟩)
      = ⟨{ connectedState with placedBid := ⟨some 1, some 10⟩ },
          [.call (.placeBid (some 1) (some 10)), .wait false,
            .unhandled ⟨some "execution reverted"⟩], none⟩ ∧
    alerts (sendBid { connectedState with placedBid := ⟨some 1, some 10⟩ }
        (.settleRejected ⟨some "execution reverted"⟩)).trace = [] ∧
    awaitsSettlement (sendBid { connectedState with placedBid := ⟨some 1, some 10⟩ }
        (.settleRejected ⟨some "execution reverted"⟩)).trace = false ∧
    signalsFailure (sendBid { connectedState with placedBid := ⟨some 1, some 10⟩ }
        (.settleRejected ⟨some "execution reverted"⟩)) = false := by
  decide

/-! ## Cached holding and cached bid list -/

/-- The state after `buyHandler` is the state before it. -/
theorem buyHandler_state (s : AppState) (o : TxOutcome) : (buyHandler s o).state = s := by
  unfold buyHandler
  split
  · rfl
  · split
    · rfl
    · split
      · cases o <;> rfl
      · rfl

/-- The state after `sellHandler` is the state before it. -/
theorem sellHandler_state (s : AppState) (o : TxOutcome) : (sellHandler s o).state = s := by
  unfold sellHandler
  split
  · rfl
  · split
    · cases o <;> rfl
    · rfl

/-- The state after `sendBid` is the state before it. -/
theorem sendBid_state (s : AppState) (o : TxOutcome) : (sendBid s o).state = s := by
  unfold sendBid
  cases s.contract <;> cases o <;> rfl

/-- The state after `confirmBuyer` is the state before it. -/
theorem confirmBuyer_state (s : AppState) (o : TxOutcome) :
    (confirmBuyer s o).state = s := by
  unfold confirmBuyer
  by_cases h : findIndex (fun bid : Bid => bid.1 == s.buyer.addr) s.bids < 0
  · simp only [h, if_true]
  · simp only [h, if_false]
    cases s.contract <;> cases o <;> rfl

/-- The state after `PayForTrade` is the state before it. -/
theorem PayForTrade_state (s : AppState) (o : TxOutcome) : (PayForTrade s o).state = s := by
  unfold PayForTrade
  split
  · rfl
  · cases s.contract <;> cases o <;> rfl

/-- C9: for every state and every ledger outcome, `buyHandler`, `sellHandler`,
`sendBid`, `confirmBuyer` and `PayForTrade` leave `shareCount` and `bids` equal
to their prior values; and for every action of the component, `shareCount`
keeps its value unless the action is `getShares` with a value returned by the
ledger, which becomes the new `shareCount` (as a big integer), and `bids` keeps its value unless
the action is `showBids` with a list returned by the ledger, which becomes the
new `bids`. -/
theorem cached_holding_and_bids_frame (s : AppState) :
    (∀ o, (buyHandler s o).state.shareCount = s.shareCount ∧
        (buyHandler s o).state.bids = s.bids) ∧
    (∀ o, (sellHandler s o).state.shareCount = s.shareCount ∧
        (sellHandler s o).state.bids = s.bids) ∧
    (∀ o, (sendBid s o).state.shareCount = s.shareCount ∧
        (sendBid s o).state.bids = s.bids) ∧
    (∀ o, (confirmBuyer s o).state.shareCount = s.shareCount ∧
        (confirmBuyer s o).state.bids = s.bids) ∧
    (∀ o, (PayForTrade s o).state.shareCount = s.shareCount ∧
        (PayForTrade s o).state.bids = s.bids) ∧
    (∀ a, (step s a).state.shareCount = s.shareCount ∨
        ∃ data, a = .getShares (.returned data) ∧
          (step s a).state.shareCount = .big data) ∧
    (∀ a, (step s a).state.bids = s.bids ∨
        ∃ data, a = .showBids (.returned data) ∧ (step s a).state.bids = data) := by
  refine ⟨fun o => ?_, fun o => ?_, fun o => ?_, fun o => ?_, fun o => ?_,
    fun a => ?_, fun a => ?_⟩
  · rw [buyHandler_state]; exact ⟨rfl, rfl⟩
  · rw [sellHandler_state]; exact ⟨rfl, rfl⟩
  · rw [sendBid_state]; exact ⟨rfl, rfl⟩
  · rw [confirmBuyer_state]; exact ⟨rfl, rfl⟩
  · rw [PayForTrade_state]; exact ⟨rfl, rfl⟩
  · cases a with
    | getShares o =>
      cases o with
      | rejected e => left; simp only [step, getShares]; split <;> rfl
      | returned data =>
        by_cases hc : s.contract = true
        · right; exact ⟨data, rfl, by simp [step, getShares, hc]⟩
        · left; simp [step, getShares, hc]
    | mount w =>
      left
      rcases w with _ | ⟨e | account⟩ <;> rfl
    | buyHandler o => left; simp only [step, buyHandler_state]
    | sellHandler o => left; simp only [step, sellHandler_state]
    | sendBid o => left; simp only [step, sendBid_state]
    | confirmBuyer o => left; simp only [step, confirmBuyer_state]
    | PayForTrade o => left; simp only [step, PayForTrade_state]
    | changeHandler v => left; simp only [step, changeHandler]; split <;> rfl
    | sellChangeHandler v => left; simp only [step, sellChangeHandler]; split <;> rfl
    | showBids o =>
      left
      simp only [step, showBids]
      cases s.contract <;> cases o <;> rfl
    | bidChangeHandler v => left; rfl
    | requestChangeHandler v => left; rfl
    | buyerChangeHandler v => left; rfl
    | buyerRequestChangeHandler v => left; rfl
    | tradeIdHandler v => left; rfl
    | tradeAmountHandler v => left; rfl
  · cases a with
    | showBids o =>
      cases o with
      | rejected e => left; simp only [step, showBids]; split <;> rfl
      | returned data =>
        by_cases hc : s.contract = true
        · right; exact ⟨data, rfl, by simp [step, showBids, hc]⟩
        · left; simp [step, showBids, hc]
    | mount w =>
      left
      rcases w with _ | ⟨e | account⟩ <;> rfl
    | buyHandler o => left; simp only [step, buyHandler_state]
    | sellHandler o => left; simp only [step, sellHandler_state]
    | sendBid o => left; simp only [step, sendBid_state]
    | confirmBuyer o => left; simp only [step, confirmBuyer_state]
    | PayForTrade o => left; simp only [step, PayForTrade_state]
    | changeHandler v => left; simp only [step, changeHandler]; split <;> rfl
    | sellChangeHandler v => left; simp only [step, sellChangeHandler]; split <;> rfl
    | getShares o =>
      left
      simp only [step, getShares]
      cases s.contract <;> cases o <;> rfl
    | bidChangeHandler v => left; rfl
    | requestChangeHandler v => left; rfl
    | buyerChangeHandler v => left; rfl
    | buyerRequestChangeHandler v => left; rfl
    | tradeIdHandler v => left; rfl
    | tradeAmountHandler v => left; rfl

/-! ## The bidder check and the request id -/

/-- C10: the local bidder check of `confirmBuyer` does not look at the request
id. For every state, address, pair of request ids and ledger outcome, the run
with the first request id is the local rejection exactly when the run with the
second is; and with an active session an address that is the bidder of some
entry of the cached bid list is forwarded to `finalizeSale` with any request
id whatever, as the only ledger call of the run. -/
theorem confirmBuyer_check_ignores_request (s : AppState) (addr : String)
    (r1 r2 : Int) (o : TxOutcome) :
    ((confirmBuyer { s with buyer := ⟨r1, addr⟩ } o).trace
          = [.alert (some "Invalid buyer address")]
        ↔ (confirmBuyer { s with buyer := ⟨r2, addr⟩ } o).trace
          = [.alert (some "Invalid buyer address")]) ∧
    (s.contract = true → (∃ bid ∈ s.bids, bid.1 = addr) →
      ledgerCalls (confirmBuyer { s with buyer := ⟨r1, addr⟩ } o).trace
        = [.finalizeSale r1 addr]) := by
  by_cases hidx : findIndex (fun bid : Bid => bid.1 == addr) s.bids < 0
  · constructor
    · simp only [confirmBuyer, hidx, if_true]
    · rintro _ ⟨bid, hbid, heq⟩
      have := (findIndex_neg_iff _ _).mp hidx bid hbid
      simp [heq] at this
  · constructor
    · simp only [confirmBuyer, hidx, if_false]
      cases s.contract <;> cases o <;> simp
    · intro hc _
      simp only [confirmBuyer, hidx, if_false, hc, if_true]
      cases o <;> rfl

/-- Witness of C10: `0xA` is in the cached bid list; it is forwarded with the
request id 7 and with the request id 8 alike. -/
theorem confirmBuyer_check_ignores_request_witness :
    ({ connectedState with bids := [("0xA", 4, false)] } : AppState).contract = true ∧
      (∃ bid ∈ ({ connectedState with bids := [("0xA", 4, false)] } : AppState).bids,
        bid.1 = "0xA") ∧
      ledgerCalls (confirmBuyer
          { ({ connectedState with bids := [("0xA", 4, false)] } : AppState) with
            buyer := ⟨7, "0xA"⟩ } .settled).trace = [.finalizeSale 7 "0xA"] ∧
      ledgerCalls (confirmBuyer
          { ({ connectedState with bids := [("0xA", 4, false)] } : AppState) with
            buyer := ⟨8, "0xA"⟩ } .settled).trace = [.finalizeSale 8 "0xA"] :=
  ⟨rfl, ⟨("0xA", 4, false), by simp [connectedState], rfl⟩,
    (confirmBuyer_check_ignores_request
      { connectedState with bids := [("0xA", 4, false)] } "0xA" 7 8 .settled).2 rfl
      ⟨("0xA", 4, false), by simp [connectedState], rfl⟩,
    (confirmBuyer_check_ignores_request
      { connectedState with bids := [("0xA", 4, false)] } "0xA" 8 7 .settled).2 rfl
      ⟨("0xA", 4, false), by simp [connectedState], rfl⟩⟩

/-! ## Paying for a trade -/

/-- A digit character is recognised as a digit and read back as its digit. -/
theorem digitChar_spec (d : Fin 10) :
    (digitChar d).isDigit = true ∧ digitOf (digitChar d) = d.val ∧
      digitChar d ≠ '-' ∧ digitChar d ≠ '.' := by
  fin_cases d <;> decide

/-- Reading the digits of a rendered digit list followed by other text. -/
theorem takeDigits_map_append (ds : List (Fin 10)) (rest : List Char) :
    takeDigits (ds.map digitChar ++ rest)
      = (ds.map Fin.val ++ (takeDigits rest).1, (takeDigits rest).2) := by
  induction ds with
  | nil => simp
  | cons d ds ih =>
    have hstep : takeDigits (digitChar d :: (ds.map digitChar ++ rest))
        = (digitOf (digitChar d) :: (takeDigits (ds.map digitChar ++ rest)).1,
            (takeDigits (ds.map digitChar ++ rest)).2) := by
      rw [takeDigits, if_pos (digitChar_spec d).1]
    simp only [List.map_cons, List.cons_append, hstep, ih, (digitChar_spec d).2.1]

/-- Appending digits shifts the number written so far. -/
theorem digitsToNat_append (a b : List Nat) :
    digitsToNat (a ++ b) = digitsToNat a * 10 ^ b.length + digitsToNat b := by
  induction b using List.reverseRecOn with
  | nil => simp [digitsToNat]
  | append_singleton b d ih =>
    have hstep : ∀ l : List Nat, digitsToNat (l ++ [d]) = 10 * digitsToNat l + d := by
      intro l
      simp [digitsToNat, List.foldl_append]
    rw [← List.append_assoc, hstep, hstep, ih, List.length_append, List.length_singleton,
      pow_succ]
    ring

/-- Padding zeros write the number zero. -/
theorem digitsToNat_replicate_zero (n : Nat) : digitsToNat (List.replicate n 0) = 0 := by
  induction n with
  | zero => rfl
  | succ n ih =>
    rw [List.replicate_succ]
    have h := digitsToNat_append [0] (List.replicate n 0)
    simp only [List.singleton_append] at h
    rw [h, ih]
    simp [digitsToNat]

/-- The conversion of the text of a non-negative decimal with at most 18
fractional digits. -/
theorem parseEther_decimalText (whole frac : List (Fin 10)) (point : Bool)
    (hdigits : 0 < whole.length + frac.length) (hpoint : point = false → frac = [])
    (hfrac : frac.length ≤ 18) :
    parseEther (decimalText whole frac point)
      = some ((digitsToNat (whole.map Fin.val) * 10 ^ 18
          + digitsToNat (frac.map Fin.val) * 10 ^ (18 - frac.length) : Nat) : Int) := by
  have hneg : ((whole.map digitChar
      ++ (if point then '.' :: frac.map digitChar else [])).head? == some '-') = false := by
    cases whole with
    | nil => cases point <;> simp
    | cons d ds =>
      have := (digitChar_spec d).2.2.1
      simp [this]
  have hrest : takeDigits (if point then '.' :: frac.map digitChar else [])
      = ([], if point then '.' :: frac.map digitChar else []) := by
    cases point
    · simp [takeDigits]
    · simp only [if_true]
      rw [takeDigits, if_neg (by decide)]
  have hfracDigits : takeDigits (if point then frac.map digitChar else [])
      = (frac.map Fin.val, []) := by
    cases point
    · simp [takeDigits, hpoint rfl]
    · have := takeDigits_map_append frac []
      simpa [takeDigits] using this
  have hafter : (if ((if point then '.' :: frac.map digitChar else []).head? == some '.')
        then (if point then '.' :: frac.map digitChar else []).tail
        else (if point then '.' :: frac.map digitChar else []))
      = (if point then frac.map digitChar else []) := by
    cases point <;> simp
  unfold parseEther decimalText parseUnits
  simp only [hneg, Bool.false_eq_true, if_false, takeDigits_map_append, hrest, List.append_nil,
    hafter, hfracDigits]
  have hlen : (frac.map Fin.val ++ List.replicate (18 - frac.length) 0).length = 18 := by
    simp only [List.length_append, List.length_map, List.length_replicate]
    omega
  have hdrop : (frac.map Fin.val ++ List.replicate (18 - frac.length) 0).drop 18 = [] :=
    List.drop_eq_nil_of_le (le_of_eq hlen)
  have htake : (frac.map Fin.val ++ List.replicate (18 - frac.length) 0).take 18
      = frac.map Fin.val ++ List.replicate (18 - frac.length) 0 :=
    List.take_of_length_le (le_of_eq hlen)
  have hcond : True ∧ 0 < (List.map Fin.val whole).length + (List.map Fin.val frac).length := by
    simpa using hdigits
  rw [if_pos hcond]
  simp only [List.length_map, hdrop, htake, List.all_nil, if_true]
  rw [digitsToNat_append, hlen, digitsToNat_append, digitsToNat_replicate_zero,
    List.length_replicate, Nat.add_zero]

/-- The base-unit value of a decimal amount is the amount times `10^18`. -/
theorem scaled_value_eq (whole frac : List (Fin 10)) (hfrac : frac.length ≤ 18) :
    (((digitsToNat (whole.map Fin.val) * 10 ^ 18
          + digitsToNat (frac.map Fin.val) * 10 ^ (18 - frac.length) : Nat) : Int) : ℚ)
      = decimalValue whole frac * 10 ^ 18 := by
  unfold decimalValue
  have hsplit : (10 : ℚ) ^ 18 = 10 ^ (18 - frac.length) * 10 ^ frac.length := by
    rw [← pow_add]
    congr 1
    omega
  have hpos : (10 : ℚ) ^ frac.length ≠ 0 := by positivity
  have key : ∀ W F a b T : ℚ, b ≠ 0 → T = a * b → W * T + F * a = (W + F / b) * T := by
    intro W F a b T hb hT
    subst hT
    field_simp
    ring
  push_cast
  exact key _ _ _ _ _ hpos hsplit

/-- C6: with an active session, for every trade id and every display amount
that is the text of a non-negative decimal with at most 18 fractional digits,
the conversion succeeds with a value `v` that is exactly the amount times
`10^18`, so that `v / 10^18` is the amount again; whatever the ledger answers,
`PayForTrade` issues exactly one ledger call, `payForTrade(tradeId)` with that
value attached unchanged; and `buyHandler`, in a state whose quantity passes
the guard (not below 1, not above 5) and has the same text, attaches the same
value. -/
theorem PayForTrade_submits_exact_value (s : AppState) (o : TxOutcome)
    (whole frac : List (Fin 10)) (point : Bool)
    (hc : s.contract = true)
    (hdigits : 0 < whole.length + frac.length) (hpoint : point = false → frac = [])
    (hfrac : frac.length ≤ 18)
    (hamount : s.trade.amount = decimalText whole frac point) :
    ∃ v : Int, parseEther s.trade.amount = some v ∧
      (v : ℚ) = decimalValue whole frac * 10 ^ 18 ∧
      (v : ℚ) / 10 ^ 18 = decimalValue whole frac ∧
      ledgerCalls (PayForTrade s o).trace = [.payForTrade s.trade.id v] ∧
      ∀ (b : AppState) (ob : TxOutcome), b.contract = true →
        b.toBuy.lessThan 1 = false → b.toBuy.greaterThan 5 = false →
        b.toBuy.toText = s.trade.amount →
        ledgerCalls (buyHandler b ob).trace = [.buyShares b.toBuy v] := by
  have hparse := parseEther_decimalText whole frac point hdigits hpoint hfrac
  rw [← hamount] at hparse
  refine ⟨_, hparse, scaled_value_eq whole frac hfrac, ?_, ?_, ?_⟩
  · rw [scaled_value_eq whole frac hfrac]
    field_simp
  · simp only [PayForTrade, hparse, hc, if_true]
    cases o <;> rfl
  · intro b ob hb hlt hgt htext
    simp only [buyHandler, hlt, hgt, Bool.or_self, Bool.false_eq_true, if_false, htext, hparse,
      hb, if_true]
    cases ob <;> rfl

/-- Witness of C6: the amount "2" of trade 4 is submitted as `2 * 10^18`,
dividing by `10^18` gives 2 back, and buying 2 shares attaches the same
value. -/
theorem PayForTrade_submits_exact_value_witness :
    ({ connectedState with trade := ⟨4, "2"⟩ } : AppState).contract = true ∧
      0 < [(2 : Fin 10)].length + ([] : List (Fin 10)).length ∧
      ([] : List (Fin 10)).length ≤ 18 ∧
      ({ connectedState with trade := ⟨4, "2"⟩ } : AppState).trade.amount
        = decimalText [2] [] false ∧
      decimalValue [2] [] = 2 ∧
      parseEther "2" = some (2 * 10 ^ 18) ∧
      ((2 * 10 ^ 18 : Int) : ℚ) / 10 ^ 18 = decimalValue [2] [] ∧
      ledgerCalls (PayForTrade { connectedState with trade := ⟨4, "2"⟩ } .settled).trace
        = [.payForTrade 4 (2 * 10 ^ 18)] ∧
      ledgerCalls (buyHandler { connectedState with toBuy := .text "2" } .settled).trace
        = [.buyShares (.text "2") (2 * 10 ^ 18)] := by
  obtain ⟨v, hparse, _, hback, hcall, hbuy⟩ :=
    PayForTrade_submits_exact_value { connectedState with trade := ⟨4, "2"⟩ } .settled
      [2] [] false rfl (by decide) (fun _ => rfl) (by decide) (by decide)
  have hv : v = 2 * 10 ^ 18 := by
    have h2 : parseEther "2" = some (2 * 10 ^ 18) := by decide
    exact Option.some.inj (hparse.symm.trans h2)
  subst hv
  refine ⟨rfl, by decide, by decide, by decide, ?_, hparse, hback, hcall, ?_⟩
  · simp [decimalValue, digitsToNat]
  · exact hbuy { connectedState with toBuy := .text "2" } .settled rfl (by decide) (by decide)
      (by decide)

end TradeShares
